import Mathlib

/-!
# Live Directory Tree server

A shallow embedding of `server/server.js`: the single-snapshot relay that
receives a tree over `POST /sync`, serves it back over `GET /tree` and
`GET /tree/text`, reports freshness over `GET /status`, and persists the
snapshot in `tree-data.json`.

Conventions of the embedding.

* A JSON value is a term of `Json`. A number is an integer (`Json.num`) or
  one of the other values `JSON.parse` yields: negative zero, an infinity, a
  fraction (`Json.other`). `undefined` is `none` in `JsVal`.
* What the JavaScript engine and the platform provide (`JSON.parse`,
  `JSON.stringify`, the decoding of a `Buffer`, number and date formatting) is
  a parameter, `Engine`. Exhaustion of the stack of the engine is not
  embedded.
* A request body is a sequence of chunks of bytes, as the `data` events
  deliver it.
* The module-level variables `currentTree` and `lastUpdateTime` and the data
  file are the fields of `ServerState`; `Date.now()` and the outcome of the
  disk write are inputs of a request, `World`.
* A thrown error is represented by its message, the only part of it the
  server uses.
* `treeToText` and `nodeToText` are embedded on the data model of the
  snapshot (`Snapshot`, `Node`); `Snapshot.ofJson` recognises the JSON values
  that belong to it.
-/

namespace LiveTree

/-! ## JSON values and the JavaScript operations the server applies to them -/

/-- A finite number that is not an integer: `mantissa / 2 ^ exponent` in lowest
terms. Every such double has this form, in one way. -/
structure Fraction where
  mantissa : Int
  exponent : Nat
  odd : mantissa % 2 = 1
  positive : 0 < exponent

/-- A number that is not an integer: negative zero, an infinity (what
`JSON.parse` makes of a numeral beyond the range of a double, such as `1e999`),
or a fraction. -/
inductive OtherNumber where
  | negZero
  | infinity (negative : Bool)
  | fraction (q : Fraction)

/-- The values produced by `JSON.parse`. An integer is `num`, any other number
is `other`. -/
inductive Json where
  | null
  | bool (b : Bool)
  | num (n : Int)
  | other (x : OtherNumber)
  | str (s : String)
  | arr (items : List Json)
  | obj (fields : List (String × Json))

/-- A JavaScript value met by the server: `none` is `undefined`. -/
abbrev JsVal := Option Json

/-- What the engine and the platform provide. -/
structure Engine where
  /-- The call `JSON.parse(text)`: the value, or the message of the `SyntaxError`. -/
  parse : String → Except String Json
  /-- The call `JSON.stringify(value)`. -/
  stringify : Json → String
  /-- The call `JSON.stringify(value, null, 2)`. -/
  stringifyPretty : Json → String
  /-- Conversion of a number to a string, as in a template literal. -/
  numToString : Int → String
  /-- Conversion to a string of a number that is not an integer. -/
  otherToString : OtherNumber → String
  /-- The text `chunk.toString()` of a `Buffer`: its bytes decoded as UTF-8, the
  ill-formed parts replaced by U+FFFD. -/
  decode : List UInt8 → String
  /-- The text `new Date(t * 1000).toLocaleString()`. -/
  localeString : Int → String
  /-- The page built by `getDebugHTML()`. -/
  debugHTML : String
  /-- Outcome of `treeToText(value)` on a value outside the data model of the
  snapshot, where it depends on implicit conversions that are not embedded:
  the text, or the message of the error thrown. -/
  textOfOther : Json → Except String String

/-- Number of UTF-16 code units of a character. -/
def utf16Units (c : Char) : Nat := if c.toNat < 0x10000 then 1 else 2

/-- The `length` of a JavaScript string: its number of UTF-16 code units. -/
def jsLength (s : String) : Nat := (s.data.map utf16Units).sum

/-- JavaScript truthiness, as used by `if (...)`, `||` and `&&`. -/
def truthy : JsVal → Bool
  | none => false
  | some .null => false
  | some (.bool b) => b
  | some (.num n) => decide (n ≠ 0)
  | some (.other .negZero) => false
  | some (.other (.infinity _)) => true
  | some (.other (.fraction _)) => true
  | some (.str s) => decide (s ≠ "")
  | some (.arr _) => true
  | some (.obj _) => true

/-- Message of the `TypeError` raised by reading a property of `null`. -/
def nullReadMessage (key : String) : String :=
  "Cannot read properties of null (reading \x27" ++ key ++ "\x27)"

/-- Message of the `TypeError` raised when an object has no usable `toString`. -/
def notPrimitiveMessage : String := "Cannot convert object to primitive value"

/-- Property read `v.key`, for the property names the handlers read from a
parsed value (`name`, `containers`, `length`): an own field of an object, the
length of an array or of a string, `undefined` elsewhere, and a `TypeError`
on `null`. -/
def getProp (v : Json) (key : String) : Except String JsVal :=
  match v with
  | .null => .error (nullReadMessage key)
  | .obj fields => .ok (fields.lookup key)
  | .arr items => .ok (if key = "length" then some (.num items.length) else none)
  | .str s => .ok (if key = "length" then some (.num (jsLength s)) else none)
  | .bool _ => .ok none
  | .num _ => .ok none
  | .other _ => .ok none

mutual
/-- String conversion of a parsed value, as performed by a template literal.
An object converts through `Object.prototype.toString` unless it has an own
field `toString`, which is never callable: then the conversion throws. An
array converts through `join`. -/
def toStr (env : Engine) : Json → Except String String
  | .null => .ok "null"
  | .bool b => .ok (if b then "true" else "false")
  | .num n => .ok (env.numToString n)
  | .other x => .ok (env.otherToString x)
  | .str s => .ok s
  | .arr items => joinStr env items
  | .obj fields =>
    if (fields.lookup "toString").isSome then .error notPrimitiveMessage
    else .ok "[object Object]"
/-- The text of `items.join(",")`: a `null` element contributes the empty string. -/
def joinStr (env : Engine) : List Json → Except String String
  | [] => .ok ""
  | x :: rest => do
    let head ← (match x with
      | .null => .ok ""
      | .bool b => toStr env (.bool b)
      | .num n => toStr env (.num n)
      | .other x => toStr env (.other x)
      | .str s => toStr env (.str s)
      | .arr items => toStr env (.arr items)
      | .obj fields => toStr env (.obj fields))
    if rest.isEmpty then pure head
    else do
      let tail ← joinStr env rest
      pure (head ++ "," ++ tail)
end

/-! ## The data model of the snapshot -/

/-- A tree entry. An absent `children` field is the empty list. -/
inductive Node where
  | mk (name className : String) (lineCount childCount : Option Int)
      (children : List Node)

/-- Field `name` of a node. -/
def Node.name : Node → String
  | .mk n _ _ _ _ => n

/-- Field `className` of a node. -/
def Node.className : Node → String
  | .mk _ c _ _ _ => c

/-- Field `lineCount` of a node, `none` when absent. -/
def Node.lineCount : Node → Option Int
  | .mk _ _ l _ _ => l

/-- Field `childCount` of a node, `none` when absent. -/
def Node.childCount : Node → Option Int
  | .mk _ _ _ c _ => c

/-- Field `children` of a node. -/
def Node.children : Node → List Node
  | .mk _ _ _ _ cs => cs

/-- The snapshot held by the server; `name` and `containers` may be absent. -/
structure Snapshot where
  name : Option String
  timestamp : Int
  containers : Option (List Node)

/-- Truthiness of an optional numeric field. -/
def truthyNum (n : Option Int) : Bool := truthy (n.map Json.num)

/-! ## `treeToText` and `nodeToText` -/

mutual
/-- The function `nodeToText(node, prefix, isLast)`. -/
def nodeToText (env : Engine) (node : Node) (pfx : String) (isLast : Bool) : String :=
  match node with
  | .mk name className lineCount childCount children =>
    let connector := if isLast then "└── " else "├── "
    let childPrefix := pfx ++ (if isLast then "    " else "│   ")
    let line := pfx ++ connector ++ name ++ (" [" ++ className ++ "]")
    let line := if truthyNum lineCount then
        line ++ (" (" ++ env.numToString (lineCount.getD 0) ++ " lines)") else line
    let line := if truthyNum childCount then
        line ++ (" (" ++ env.numToString (childCount.getD 0) ++ " children)") else line
    let result := line ++ "\n"
    if children.length > 0 then
      forEachChild env childPrefix children.length result 0 children
    else result
/-- The loop `node.children.forEach((child, i) => ...)` of `nodeToText`, from
index `i` on, `len` being `node.children.length`. -/
def forEachChild (env : Engine) (childPrefix : String) (len : Nat) (result : String)
    (i : Nat) : List Node → String
  | [] => result
  | child :: rest =>
    forEachChild env childPrefix len
      (result ++ nodeToText env child childPrefix (decide ((i : Int) = (len : Int) - 1)))
      (i + 1) rest
end

/-- The loop `tree.containers.forEach((container, i) => ...)` of `treeToText`,
from index `i` on, `len` being `tree.containers.length`. -/
def forEachContainer (env : Engine) (len : Nat) (result : String) (i : Nat) :
    List Node → String
  | [] => result
  | container :: rest =>
    let result := result ++ nodeToText env container "" (decide ((i : Int) = (len : Int) - 1))
    let result := result ++ "\n"
    forEachContainer env len result (i + 1) rest

/-- The function `treeToText(tree)`; its parameters `prefix` and `isLast` are never read. -/
def treeToText (env : Engine) (tree : Snapshot) : String :=
  let result := "=====================================\n"
  let result := result ++ "  PROJECT DIRECTORY TREE\n"
  let result := result ++
    ("  Game: " ++ (if truthy (tree.name.map Json.str) then tree.name.getD "" else "Unknown")
      ++ "\n")
  let result := result ++ ("  Updated: " ++ env.localeString tree.timestamp ++ "\n")
  let result := result ++ "=====================================\n\n"
  match tree.containers with
  | some containers => forEachContainer env containers.length result 0 containers
  | none => result

/-! ## Recognising the data model in a parsed value -/

/-- A field that must hold a string. -/
def strField (fields : List (String × Json)) (key : String) : Option String :=
  match fields.lookup key with
  | some (.str s) => some s
  | _ => none

/-- An optional numeric field: absent or `null` is `none`. -/
def optNumField (fields : List (String × Json)) (key : String) : Option (Option Int) :=
  match fields.lookup key with
  | none => some none
  | some .null => some none
  | some (.num n) => some (some n)
  | some _ => none

mutual
/-- The node a parsed value denotes, if it is one: an object whose `name` and
`className` are strings, whose `lineCount` and `childCount` are numbers when
present, and whose `children`, when present, is an array of nodes. -/
def Node.ofJson : Json → Option Node
  | .obj fields => do
    let name ← strField fields "name"
    let className ← strField fields "className"
    let lineCount ← optNumField fields "lineCount"
    let childCount ← optNumField fields "childCount"
    let children ← Node.childrenOfFields fields
    pure (.mk name className lineCount childCount children)
  | .null => none
  | .bool _ => none
  | .num _ => none
  | .other _ => none
  | .str _ => none
  | .arr _ => none
/-- The children held by the first field named `children`. -/
def Node.childrenOfFields : List (String × Json) → Option (List Node)
  | [] => some []
  | (key, value) :: rest =>
    if key = "children" then Node.listOfValue value else Node.childrenOfFields rest
/-- A sequence of nodes held in a field: an array of nodes, or `null`. -/
def Node.listOfValue : Json → Option (List Node)
  | .null => some []
  | .arr items => Node.listOfJson items
  | .bool _ => none
  | .num _ => none
  | .other _ => none
  | .str _ => none
  | .obj _ => none
/-- The nodes a list of parsed values denotes, if all of them are nodes. -/
def Node.listOfJson : List Json → Option (List Node)
  | [] => some []
  | x :: rest => do
    let node ← Node.ofJson x
    let nodes ← Node.listOfJson rest
    pure (node :: nodes)
end

/-- The snapshot a parsed value denotes, if it is one: an object whose `name`
is a string when present, whose `timestamp` is a number, and whose
`containers`, when present, is an array of nodes. -/
def Snapshot.ofJson : Json → Option Snapshot
  | .obj fields => do
    let name ← (match fields.lookup "name" with
      | none => some none
      | some .null => some none
      | some (.str s) => some (some s)
      | some _ => none)
    let timestamp ← (match fields.lookup "timestamp" with
      | some (.num n) => some n
      | _ => none)
    let containers ← (match fields.lookup "containers" with
      | none => some none
      | some .null => some none
      | some (.arr items) => (Node.listOfJson items).map some
      | some _ => none)
    pure { name := name, timestamp := timestamp, containers := containers }
  | _ => none

/-! ## The server -/

/-- The constant `corsHeaders`. -/
def corsHeaders : List (String × String) :=
  [("Access-Control-Allow-Origin", "*"),
   ("Access-Control-Allow-Methods", "GET, POST, OPTIONS"),
   ("Access-Control-Allow-Headers", "Content-Type")]

/-- An incoming request: its method; the path name of
`new URL(req.url, ...)`, `none` when that constructor throws; and the events of
its body stream: the `data` chunks in order, each a `Buffer` of bytes, then
`end` (`streamError = none`) or `error` with a message. -/
structure Request where
  method : String
  pathname : Option String
  chunks : List (List UInt8)
  streamError : Option String

/-- What the server sends back. -/
structure Response where
  status : Nat
  headers : List (String × String)
  body : String

/-- The limit on `body.length` in `parseBody`. -/
def maxBodyLength : Nat := 10 * 1024 * 1024

/-- The variables of one `parseBody` call: the text received so far and, once
the promise has been rejected by the size check, the message of the rejection. -/
structure BodyReader where
  body : String
  rejected : Option String

/-- The `data` listener of `parseBody`: the chunk is decoded on its own and
appended. A promise is settled once: a later `reject` does not replace an
earlier one. -/
def BodyReader.onData (env : Engine) (r : BodyReader) (chunk : List UInt8) : BodyReader :=
  let body := r.body ++ env.decode chunk
  if jsLength body > maxBodyLength then
    { body := body, rejected := r.rejected <|> some "Body too large" }
  else
    { body := body, rejected := r.rejected }

/-- The function `parseBody(req)`: the value the promise resolves to, or the message of the
error it is rejected with. -/
def parseBody (env : Engine) (req : Request) : Except String Json :=
  let r := req.chunks.foldl (BodyReader.onData env) { body := "", rejected := none }
  match r.rejected with
  | some message => .error message
  | none =>
    match req.streamError with
    | some message => .error message
    | none => env.parse r.body

/-- The text `parseBody` assembles from the chunks of a body: each chunk decoded
on its own, the results concatenated. -/
def bodyText (env : Engine) (chunks : List (List UInt8)) : String :=
  String.join (chunks.map env.decode)

/-- The data file `tree-data.json`. -/
inductive DataFile where
  | absent
  | unreadable
  | content (text : String)

/-- Outcome of `fs.writeFileSync`: the file is written, or the call throws and
leaves the file in the given condition. -/
inductive WriteResult where
  | written
  | failed (left : DataFile)

/-- The function `saveTree()`: the data file after the call. -/
def saveTree (env : Engine) (currentTree : Json) (write : WriteResult) : DataFile :=
  match write with
  | .written => .content (env.stringifyPretty currentTree)
  | .failed left => left

/-- The function `loadTree()`: the value of `currentTree` after the call. -/
def loadTree (env : Engine) (file : DataFile) (currentTree : Json) : Json :=
  match file with
  | .absent => currentTree
  | .unreadable => currentTree
  | .content data =>
    match env.parse data with
    | .ok value => value
    | .error _ => currentTree

/-- The initial value of `currentTree`. -/
def placeholderTree : Json :=
  .obj [("name", .str "Not connected"), ("timestamp", .num 0), ("containers", .arr [])]

/-- The state of the process. -/
structure ServerState where
  currentTree : Json
  lastUpdateTime : Int
  dataFile : DataFile

/-- What a request observes of the outside: `Date.now()` and the outcome of
the disk write. -/
structure World where
  now : Int
  write : WriteResult

/-- The state once the module has been loaded at time `now`, with the data
file in condition `file`. -/
def startup (env : Engine) (file : DataFile) (now : Int) : ServerState :=
  { currentTree := loadTree env file placeholderTree, lastUpdateTime := now, dataFile := file }

/-- A response with a JSON body. -/
def jsonResponse (env : Engine) (status : Nat) (value : Json) : Response :=
  { status := status
    headers := corsHeaders ++ [("Content-Type", "application/json")]
    body := env.stringify value }

/-- The text interpolated for `data.name || \x27Game\x27` in the log line of
`/sync`, the only part of that line whose evaluation can throw. -/
def syncLogName (env : Engine) (data : Json) : Except String String := do
  let name ← getProp data "name"
  toStr env (if truthy name then name.getD (.str "Game") else .str "Game")

/-- The object sent by `/status`. -/
def statusReport (s : ServerState) (now : Int) : Except String Json := do
  let timeSinceUpdate := now - s.lastUpdateTime
  let name ← getProp s.currentTree "name"
  let containers ← getProp s.currentTree "containers"
  let count : JsVal ← (match containers with
    | none => .ok none
    | some .null => .ok none
    | some value => getProp value "length")
  pure (.obj
    [("connected", .bool (decide (timeSinceUpdate < 30000))),
     ("lastUpdate", .num s.lastUpdateTime),
     ("timeSinceUpdate", .num timeSinceUpdate),
     ("gameName", if truthy name then name.getD (.str "Unknown") else .str "Unknown"),
     ("containerCount", if truthy count then count.getD (.num 0) else .num 0)])

/-- An error thrown in the `try` block of the request handler: its message,
and the status passed to `res.writeHead` before it was thrown, if that call
had been made. -/
structure Thrown where
  message : String
  headWritten : Option Nat

/-- What the handler makes of a request. -/
inductive Reply where
  /-- The response was sent. -/
  | sent (response : Response)
  /-- An error was thrown after `res.writeHead(status, ...)`. The `catch` block
  calls `res.writeHead` again, which throws once the head is written: the
  response is never ended and the error escapes the handler. What the runtime
  does with the rejected promise of the handler is outside the embedding. -/
  | unfinished (status : Nat)
  /-- The constructor `new URL(req.url, ...)` threw, before the `try` block:
  nothing is sent and the error escapes the handler. -/
  | unanswered

/-- The reply is a response with a client-error status, 400 to 499. -/
def Reply.clientError : Reply → Bool
  | .sent response => decide (400 ≤ response.status ∧ response.status < 500)
  | .unfinished _ => false
  | .unanswered => false

/-- The body of the `try` block of the request handler: the state it leaves
and the response it sends, or the error it throws. -/
def route (env : Engine) (s : ServerState) (w : World) (req : Request) (pathname : String) :
    ServerState × Except Thrown Response :=
  if pathname = "/ping" ∧ req.method = "GET" then
    (s, .ok (jsonResponse env 200 (.obj
      [("status", .str "ok"), ("server", .str "LiveDirectoryTree"),
       ("version", .str "1.0.0"), ("timestamp", .num w.now)])))
  else if pathname = "/sync" ∧ req.method = "POST" then
    match parseBody env req with
    | .error message => (s, .error { message := message, headWritten := none })
    | .ok data =>
      let s := { s with currentTree := data }
      let s := { s with lastUpdateTime := w.now }
      let s := { s with dataFile := saveTree env s.currentTree w.write }
      match syncLogName env data with
      | .error message => (s, .error { message := message, headWritten := none })
      | .ok _ =>
        (s, .ok (jsonResponse env 200 (.obj [("status", .str "ok"), ("received", .bool true)])))
  else if pathname = "/tree" ∧ req.method = "GET" then
    (s, .ok (jsonResponse env 200 s.currentTree))
  else if pathname = "/tree/text" ∧ req.method = "GET" then
    let text : Except String String := (match Snapshot.ofJson s.currentTree with
      | some tree => .ok (treeToText env tree)
      | none => env.textOfOther s.currentTree)
    match text with
    | .error message => (s, .error { message := message, headWritten := none })
    | .ok text =>
      (s, .ok { status := 200, headers := corsHeaders ++ [("Content-Type", "text/plain")],
                body := text })
  else if pathname = "/status" ∧ req.method = "GET" then
    match statusReport s w.now with
    | .error message => (s, .error { message := message, headWritten := some 200 })
    | .ok report => (s, .ok (jsonResponse env 200 report))
  else if pathname = "/" ∧ req.method = "GET" then
    (s, .ok { status := 200, headers := corsHeaders ++ [("Content-Type", "text/html")],
              body := env.debugHTML })
  else
    (s, .ok (jsonResponse env 404 (.obj [("error", .str "Not found")])))

/-- The request handler passed to `http.createServer`. -/
def handle (env : Engine) (s : ServerState) (w : World) (req : Request) :
    ServerState × Reply :=
  match req.pathname with
  | none => (s, .unanswered)
  | some pathname =>
    if req.method = "OPTIONS" then
      (s, .sent { status := 204, headers := corsHeaders, body := "" })
    else
      match route env s w req pathname with
      | (s, .ok response) => (s, .sent response)
      | (s, .error thrown) =>
        match thrown.headWritten with
        | none => (s, .sent (jsonResponse env 500 (.obj [("error", .str thrown.message)])))
        | some status => (s, .unfinished status)

/-! ## Values and an engine for the examples -/

/-- The snapshot of the worked example. -/
def game1 : Json :=
  .obj [("name", .str "Game1"), ("timestamp", .num 1000),
    ("containers", .arr [.obj [("name", .str "Workspace"), ("className", .str "Folder"),
      ("children", .arr [.obj [("name", .str "Part1"), ("className", .str "Part")]])]])]

/-- The request body of the worked example. -/
def game1Text : String :=
  "\x7b\"name\":\"Game1\",\"timestamp\":1000,\"containers\":[\x7b\"name\":\"Workspace\",\"className\":\"Folder\",\"children\":[\x7b\"name\":\"Part1\",\"className\":\"Part\"\x7d]\x7d]\x7d"

/-- The snapshot of the worked example, in the data model. -/
def game1Snapshot : Snapshot :=
  { name := some "Game1", timestamp := 1000,
    containers := some [.mk "Workspace" "Folder" none none [.mk "Part1" "Part" none none []]] }

/-- The bytes of a text in UTF-8. -/
def utf8 (s : String) : List UInt8 := s.data.flatMap String.utf8EncodeChar

/-- The replacement character U+FFFD. -/
def replacementChar : Char := Char.ofNat 0xFFFD

/-- The state of the UTF-8 decoder between two bytes: the code point built so
far, the number of continuation bytes its sequence needs and has seen, and the
range the next byte must lie in. -/
structure Utf8State where
  codePoint : Nat
  needed : Nat
  seen : Nat
  lower : Nat
  upper : Nat

/-- The state of the decoder outside a sequence. -/
def Utf8State.initial : Utf8State :=
  { codePoint := 0, needed := 0, seen := 0, lower := 0x80, upper := 0xBF }

/-- A byte met outside a sequence: what it emits, and the state it leaves. An
ASCII byte is a character, a lead byte opens a sequence, any other byte is
replaced. -/
def utf8Lead (b : Nat) : List Char × Utf8State :=
  if b < 0x80 then ([Char.ofNat b], Utf8State.initial)
  else if 0xC2 ≤ b ∧ b ≤ 0xDF then
    ([], { codePoint := b % 0x20, needed := 1, seen := 0, lower := 0x80, upper := 0xBF })
  else if 0xE0 ≤ b ∧ b ≤ 0xEF then
    ([], { codePoint := b % 0x10, needed := 2, seen := 0,
           lower := if b = 0xE0 then 0xA0 else 0x80,
           upper := if b = 0xED then 0x9F else 0xBF })
  else if 0xF0 ≤ b ∧ b ≤ 0xF4 then
    ([], { codePoint := b % 0x08, needed := 3, seen := 0,
           lower := if b = 0xF0 then 0x90 else 0x80,
           upper := if b = 0xF4 then 0x8F else 0xBF })
  else ([replacementChar], Utf8State.initial)

/-- UTF-8 decoding with replacement: a sequence cut short, by a byte that
cannot continue it or by the end of the bytes, is replaced by one U+FFFD, and
the byte that cut it is read again as the start of a sequence. -/
def utf8Decode : List UInt8 → Utf8State → List Char
  | [], st => if st.needed = 0 then [] else [replacementChar]
  | byte :: rest, st =>
    if st.needed = 0 then
      (utf8Lead byte.toNat).1 ++ utf8Decode rest (utf8Lead byte.toNat).2
    else if byte.toNat < st.lower ∨ st.upper < byte.toNat then
      replacementChar :: ((utf8Lead byte.toNat).1 ++ utf8Decode rest (utf8Lead byte.toNat).2)
    else if st.seen + 1 = st.needed then
      Char.ofNat (st.codePoint * 64 + byte.toNat % 64) :: utf8Decode rest Utf8State.initial
    else
      utf8Decode rest
        { codePoint := st.codePoint * 64 + byte.toNat % 64, needed := st.needed,
          seen := st.seen + 1, lower := 0x80, upper := 0xBF }

/-- The exact decimal expansion of a fraction. -/
def Fraction.decimal (q : Fraction) : String :=
  let digits := (toString (q.mantissa.natAbs * 5 ^ q.exponent)).data
  let padded := List.replicate (q.exponent + 1 - digits.length) (Char.ofNat 48) ++ digits
  (if q.mantissa < 0 then "-" else "") ++
    String.mk (padded.take (padded.length - q.exponent)) ++ "." ++
    String.mk (padded.drop (padded.length - q.exponent))

/-- A number that is not an integer, as `JSON.stringify` writes it: negative
zero as `0`, an infinity as `null`. -/
def OtherNumber.json : OtherNumber → String
  | .negZero => "0"
  | .infinity _ => "null"
  | .fraction q => q.decimal

/-- A hexadecimal digit. -/
def hexDigit (n : Nat) : Char :=
  if n < 10 then Char.ofNat (48 + n) else Char.ofNat (87 + n)

/-- A character inside a quoted JSON string. -/
def escapeChar (c : Char) : String :=
  if c = '"' then "\\\""
  else if c = '\\' then "\\\\"
  else if c = '\n' then "\\n"
  else if c = '\r' then "\\r"
  else if c = '\t' then "\\t"
  else if c.toNat = 8 then "\\b"
  else if c.toNat = 12 then "\\f"
  else if c.toNat < 32 then
    "\\u00" ++ String.mk [hexDigit (c.toNat / 16), hexDigit (c.toNat % 16)]
  else String.singleton c

/-- A quoted JSON string. -/
def quote (s : String) : String :=
  "\"" ++ String.join (s.data.map escapeChar) ++ "\""

mutual
/-- Compact serialisation of a value. -/
def compact : Json → String
  | .null => "null"
  | .bool b => if b then "true" else "false"
  | .num n => toString n
  | .other x => x.json
  | .str s => quote s
  | .arr items => "[" ++ compactItems items ++ "]"
  | .obj fields => "\x7b" ++ compactFields fields ++ "\x7d"
/-- The items of an array, separated by commas. -/
def compactItems : List Json → String
  | [] => ""
  | x :: rest => compact x ++ (if rest.isEmpty then "" else "," ++ compactItems rest)
/-- The members of an object, separated by commas. -/
def compactFields : List (String × Json) → String
  | [] => ""
  | (key, value) :: rest =>
    quote key ++ ":" ++ compact value ++ (if rest.isEmpty then "" else "," ++ compactFields rest)
end

/-- A line break followed by `depth` levels of two spaces. -/
def breakLine (depth : Nat) : String :=
  "\n" ++ String.mk (List.replicate (2 * depth) ' ')

mutual
/-- Serialisation of a value with an indentation of two spaces, at nesting `depth`. -/
def pretty (depth : Nat) : Json → String
  | .null => "null"
  | .bool b => if b then "true" else "false"
  | .num n => toString n
  | .other x => x.json
  | .str s => quote s
  | .arr items =>
    if items.isEmpty then "[]"
    else "[" ++ breakLine (depth + 1) ++ prettyItems depth items ++ breakLine depth ++ "]"
  | .obj fields =>
    if fields.isEmpty then "\x7b\x7d"
    else "\x7b" ++ breakLine (depth + 1) ++ prettyFields depth fields ++ breakLine depth ++ "\x7d"
/-- The items of an array, one per line. -/
def prettyItems (depth : Nat) : List Json → String
  | [] => ""
  | x :: rest =>
    pretty (depth + 1) x ++
      (if rest.isEmpty then "" else "," ++ breakLine (depth + 1) ++ prettyItems depth rest)
/-- The members of an object, one per line. -/
def prettyFields (depth : Nat) : List (String × Json) → String
  | [] => ""
  | (key, value) :: rest =>
    quote key ++ ": " ++ pretty (depth + 1) value ++
      (if rest.isEmpty then "" else "," ++ breakLine (depth + 1) ++ prettyFields depth rest)
end

/-- The contents of a JSON string without escapes, read after its opening
quote: the characters up to the closing quote, which must end the text. -/
def plainString : List Char → Option (List Char)
  | [] => none
  | c :: rest =>
    if c = '"' then (if rest.isEmpty then some [] else none)
    else if c = '\\' ∨ c.toNat < 32 then none
    else (plainString rest).map (fun cs => c :: cs)

/-- The object `{name: "€"}`. -/
def euroObject : Json := .obj [("name", .str "€")]

/-- The object `{name: "\uFFFD\uFFFD\uFFFD"}`. -/
def brokenObject : Json :=
  .obj [("name", .str (String.mk [replacementChar, replacementChar, replacementChar]))]

/-- The texts the example engine parses besides plain strings, with their values. -/
def exampleTexts : List (String × Json) :=
  [("null", .null),
   (game1Text, game1),
   (pretty 0 game1, game1),
   ("1e999", .other (.infinity false)),
   (compact euroObject, euroObject),
   (compact brokenObject, brokenObject)]

/-- The parser of the example engine: a string without escapes, or one of the
texts of `exampleTexts`; any other text is answered with a syntax error. -/
def exampleParse (text : String) : Except String Json :=
  match text.data with
  | [] => .error "Unexpected end of JSON input"
  | c :: rest =>
    if c = '"' then
      match plainString rest with
      | some cs => .ok (.str (String.mk cs))
      | none => .error "Unexpected end of JSON input"
    else
      match exampleTexts.lookup text with
      | some value => .ok value
      | none => .error "Unexpected end of JSON input"

/-- An engine for the examples. It serialises every value, decodes UTF-8 with
replacement, writes integers in decimal and dates as their number of seconds,
and parses the texts the examples use. -/
def exampleEngine : Engine where
  parse := exampleParse
  stringify := compact
  stringifyPretty := pretty 0
  numToString := fun n => toString n
  otherToString := fun x =>
    match x with
    | .negZero => "0"
    | .infinity negative => if negative then "-Infinity" else "Infinity"
    | .fraction q => q.decimal
  decode := fun bytes => String.mk (utf8Decode bytes Utf8State.initial)
  localeString := fun t => toString t
  debugHTML := "<!DOCTYPE html>"
  textOfOther := fun _ => .error (nullReadMessage "name")

/-- A state the server can be in: started at time 0 without a data file. -/
def exampleState : ServerState := startup exampleEngine .absent 0

/-- A `POST /sync` request whose body arrives in the given chunks and ends normally. -/
def postSync (chunks : List (List UInt8)) : Request :=
  { method := "POST", pathname := some "/sync", chunks := chunks, streamError := none }

/-- A `GET` request; it has no body. -/
def getRequest (pathname : String) : Request :=
  { method := "GET", pathname := some pathname, chunks := [], streamError := none }

/-- The first chunk of the body `{"name":"€"}` cut after the first of the three
bytes of `€`. -/
def euroChunk₁ : List UInt8 := utf8 "\x7b\"name\":\"" ++ [0xE2]

/-- The second chunk of the body `{"name":"€"}` cut inside `€`. -/
def euroChunk₂ : List UInt8 := [0x82, 0xAC] ++ utf8 "\"\x7d"

/-- The body made of a quote, `n` times `€` and a quote: `3 * n + 2` bytes. -/
def euroBody (n : Nat) : List UInt8 :=
  0x22 :: ((List.replicate n [0xE2, 0x82, 0xAC]).flatten ++ [0x22])

/-- The text of `euroBody n`: `n + 2` characters. -/
def euroText (n : Nat) : String :=
  String.mk ('"' :: (List.replicate n '€' ++ ['"']))

/-- The string `euroBody n` denotes. -/
def euroString (n : Nat) : String := String.mk (List.replicate n '€')

/-- The promise has been rejected by the size check exactly when the text
received so far is over the limit. -/
def BodyReader.Sound (r : BodyReader) : Prop :=
  (r.rejected = some "Body too large" ∧ maxBodyLength < jsLength r.body) ∨
    (r.rejected = none ∧ jsLength r.body ≤ maxBodyLength)

/-! ## The layout of the text, in the words of its description -/

/-- The connector drawn before a node: terminal for the last of its siblings. -/
def connector (isLast : Bool) : String := if isLast then "└── " else "├── "

/-- The indentation segment an ancestor contributes to the lines below it:
blank under the last of its siblings, a vertical bar otherwise. -/
def segment (isLast : Bool) : String := if isLast then "    " else "│   "

/-- The annotation of a node for its line count. -/
def lineNote (env : Engine) (node : Node) : String :=
  match node.lineCount with
  | some n => if n = 0 then "" else " (" ++ env.numToString n ++ " lines)"
  | none => ""

/-- The annotation of a node for its child count. -/
def childNote (env : Engine) (node : Node) : String :=
  match node.childCount with
  | some n => if n = 0 then "" else " (" ++ env.numToString n ++ " children)"
  | none => ""

/-- What a line shows of its node, after the connector. -/
def nodeLabel (env : Engine) (node : Node) : String :=
  node.name ++ " [" ++ node.className ++ "]" ++ lineNote env node ++ childNote env node

/-- The text of a sequence of siblings: each one rendered under the same
indentation, the final one as the last. -/
def siblingsText (env : Engine) (pfx : String) : List Node → String
  | [] => ""
  | node :: rest => nodeToText env node pfx rest.isEmpty ++ siblingsText env pfx rest

/-- The text of the top-level containers: each one rendered without
indentation and followed by an empty line, the final one as the last. -/
def containersText (env : Engine) : List Node → String
  | [] => ""
  | node :: rest => nodeToText env node "" rest.isEmpty ++ "\n" ++ containersText env rest

/-- A line of the tree: the node it shows, whether that node is the last of
its siblings, and the same for each of its ancestors below the top level,
outermost first. -/
structure Row where
  ancestorsLast : List Bool
  isLast : Bool
  node : Node

mutual
/-- The lines of a subtree, in depth-first pre-order. -/
def Node.rows (ancestorsLast : List Bool) (isLast : Bool) : Node → List Row
  | .mk name className lineCount childCount children =>
    { ancestorsLast := ancestorsLast, isLast := isLast,
      node := .mk name className lineCount childCount children } ::
      Node.rowsOfSiblings (ancestorsLast ++ [isLast]) children
/-- The lines of a sequence of siblings and their subtrees. -/
def Node.rowsOfSiblings (ancestorsLast : List Bool) : List Node → List Row
  | [] => []
  | node :: rest =>
    Node.rows ancestorsLast rest.isEmpty node ++ Node.rowsOfSiblings ancestorsLast rest
end

/-- The lines of the top-level containers, container by container: the final
container is the last of its siblings. -/
def containerRows : List Node → List (List Row)
  | [] => []
  | node :: rest => Node.rows [] rest.isEmpty node :: containerRows rest

/-- The text of a line. -/
def Row.text (env : Engine) (r : Row) : String :=
  String.join (r.ancestorsLast.map segment) ++ connector r.isLast ++ nodeLabel env r.node

mutual
/-- The nodes of a subtree in depth-first pre-order, children in stored order. -/
def Node.preorder : Node → List Node
  | .mk name className lineCount childCount children =>
    .mk name className lineCount childCount children :: Node.preorderAll children
/-- The nodes of a sequence of subtrees, one subtree after the other. -/
def Node.preorderAll : List Node → List Node
  | [] => []
  | node :: rest => Node.preorder node ++ Node.preorderAll rest
end

/-- The banner: five lines and a blank line. -/
def banner (env : Engine) (tree : Snapshot) : String :=
  String.join (List.map (fun line => line ++ "\n")
    ["=====================================",
     "  PROJECT DIRECTORY TREE",
     "  Game: " ++ (match tree.name with
       | some name => if name = "" then "Unknown" else name
       | none => "Unknown"),
     "  Updated: " ++ env.localeString tree.timestamp,
     "=====================================",
     ""])

set_option maxRecDepth 100000

/-! ## Strings -/

theorem join_cons (a : String) (l : List String) : String.join (a :: l) = a ++ String.join l := by
  apply String.ext
  simp [String.data_join]

theorem join_nil : String.join [] = "" := rfl

theorem join_append (l₁ l₂ : List String) :
    String.join (l₁ ++ l₂) = String.join l₁ ++ String.join l₂ := by
  apply String.ext
  simp [String.data_join]

theorem jsLength_append (a b : String) : jsLength (a ++ b) = jsLength a + jsLength b := by
  simp [jsLength]

/-! ## `parseBody` -/

/-- The text accumulated by the `data` listener is the concatenation of the
chunks, each decoded on its own. -/
theorem foldl_onData_body (env : Engine) (chunks : List (List UInt8)) (r : BodyReader) :
    (chunks.foldl (BodyReader.onData env) r).body = r.body ++ bodyText env chunks := by
  unfold bodyText
  induction chunks generalizing r with
  | nil => simp [join_nil]
  | cons c cs ih =>
    rw [List.foldl_cons, ih, List.map_cons, join_cons, ← String.append_assoc]
    congr 1
    unfold BodyReader.onData
    dsimp only
    split <;> rfl

theorem onData_sound (env : Engine) (r : BodyReader) (chunk : List UInt8) (h : r.Sound) :
    (r.onData env chunk).Sound := by
  unfold BodyReader.onData
  dsimp only
  rcases h with ⟨hr, hl⟩ | ⟨hr, hl⟩
  · have : maxBodyLength < jsLength (r.body ++ env.decode chunk) := by
      rw [jsLength_append]; omega
    rw [if_pos this]
    left
    simp [hr, this]
  · by_cases hc : maxBodyLength < jsLength (r.body ++ env.decode chunk)
    · rw [if_pos hc]; left; simp [hr, hc]
    · rw [if_neg hc]; right; simp [hr]; omega

theorem foldl_onData_sound (env : Engine) (chunks : List (List UInt8)) (r : BodyReader)
    (h : r.Sound) : (chunks.foldl (BodyReader.onData env) r).Sound := by
  induction chunks generalizing r with
  | nil => simpa using h
  | cons c cs ih => exact ih _ (onData_sound env r c h)

/-- The outcome of `parseBody` by cases: the assembled text over the limit, a
stream error, or the outcome of `JSON.parse` on the assembled text. -/
theorem parseBody_eq (env : Engine) (req : Request) :
    parseBody env req =
      if maxBodyLength < jsLength (bodyText env req.chunks) then .error "Body too large"
      else match req.streamError with
        | some message => .error message
        | none => env.parse (bodyText env req.chunks) := by
  have hs := foldl_onData_sound env req.chunks { body := "", rejected := none }
    (Or.inr ⟨rfl, by simp [jsLength]⟩)
  have hb := foldl_onData_body env req.chunks { body := "", rejected := none }
  simp only [String.empty_append] at hb
  unfold parseBody
  dsimp only
  rcases hs with ⟨hr, hl⟩ | ⟨hr, hl⟩
  · rw [hb] at hl
    rw [hr, if_pos hl]
  · rw [hb] at hl
    rw [hr, if_neg (by omega), hb]

/-! ## The request handler -/

/-- The state left by `POST /sync` when the body is accepted. -/
theorem handle_sync_state (env : Engine) (s : ServerState) (w : World) (req : Request)
    (data : Json) (hm : req.method = "POST") (hp : req.pathname = some "/sync")
    (hbody : parseBody env req = .ok data) :
    (handle env s w req).1 =
      { currentTree := data, lastUpdateTime := w.now, dataFile := saveTree env data w.write } := by
  unfold handle route
  simp only [hm, hp, hbody]
  cases hlog : syncLogName env data <;> simp [hlog]

/-- The response of `POST /sync` when the body is accepted. -/
theorem handle_sync_response (env : Engine) (s : ServerState) (w : World) (req : Request)
    (data : Json) (hm : req.method = "POST") (hp : req.pathname = some "/sync")
    (hbody : parseBody env req = .ok data) :
    (handle env s w req).2 =
      match syncLogName env data with
      | .ok _ =>
        .sent (jsonResponse env 200 (.obj [("status", .str "ok"), ("received", .bool true)]))
      | .error message => .sent (jsonResponse env 500 (.obj [("error", .str message)])) := by
  unfold handle route
  simp only [hm, hp, hbody]
  cases hlog : syncLogName env data <;> simp [hlog]

/-- A `POST /sync` whose body is rejected: the state is kept and the answer is 500. -/
theorem handle_sync_rejected (env : Engine) (s : ServerState) (w : World) (req : Request)
    (message : String) (hm : req.method = "POST") (hp : req.pathname = some "/sync")
    (hbody : parseBody env req = .error message) :
    handle env s w req = (s, .sent (jsonResponse env 500 (.obj [("error", .str message)]))) := by
  unfold handle route
  simp [hm, hp, hbody]

/-- Outside `POST /sync` the `try` block leaves the state as it is. -/
theorem route_other_state (env : Engine) (s : ServerState) (w : World) (req : Request)
    (pathname : String) (h : ¬ (pathname = "/sync" ∧ req.method = "POST")) :
    (route env s w req pathname).1 = s := by
  unfold route
  simp only [if_neg h]
  split_ifs
  · rfl
  · rfl
  · split <;> rfl
  · split <;> rfl
  · rfl
  · rfl

/-- The state left by the handler is the one left by the `try` block. -/
theorem handle_state (env : Engine) (s : ServerState) (w : World) (req : Request)
    (pathname : String) (hp : req.pathname = some pathname) :
    (handle env s w req).1
      = if req.method = "OPTIONS" then s else (route env s w req pathname).1 := by
  unfold handle
  rw [hp]
  dsimp only
  split
  · rfl
  · rcases route env s w req pathname with ⟨s', r | r⟩
    · dsimp only
      split <;> rfl
    · rfl

/-- A request other than `POST /sync` leaves the state as it is. -/
theorem handle_other_state (env : Engine) (s : ServerState) (w : World) (req : Request)
    (h : ¬ (req.pathname = some "/sync" ∧ req.method = "POST")) :
    (handle env s w req).1 = s := by
  cases hp : req.pathname with
  | none => unfold handle; rw [hp]
  | some pathname =>
    rw [handle_state env s w req pathname hp, route_other_state env s w req pathname, ite_self]
    rintro ⟨h1, h2⟩
    exact h ⟨by rw [hp, h1], h2⟩

/-- The route `GET /tree` answers with the stored snapshot. -/
theorem handle_tree (env : Engine) (s : ServerState) (w : World) (req : Request)
    (hm : req.method = "GET") (hp : req.pathname = some "/tree") :
    handle env s w req = (s, .sent (jsonResponse env 200 s.currentTree)) := by
  unfold handle route
  simp [hm, hp]

/-- The body of a `postSync` request whose assembled text parses within the
limit is accepted. -/
theorem parseBody_postSync_ok (env : Engine) (chunks : List (List UInt8)) (X : Json)
    (hsize : jsLength (bodyText env chunks) ≤ maxBodyLength)
    (hparse : env.parse (bodyText env chunks) = .ok X) :
    parseBody env (postSync chunks) = .ok X := by
  rw [parseBody_eq]
  simp only [postSync]
  rw [if_neg (by omega), hparse]

/-- After a `POST /sync` whose assembled text parses to `X` within the limit,
the snapshot is `X` and `GET /tree` answers 200 with the serialisation of `X`. -/
theorem sync_then_tree_serves_assembled_text (env : Engine) (s : ServerState) (w₁ w₂ : World)
    (chunks : List (List UInt8)) (X : Json)
    (hsize : jsLength (bodyText env chunks) ≤ maxBodyLength)
    (hparse : env.parse (bodyText env chunks) = .ok X) :
    (handle env s w₁ (postSync chunks)).1.currentTree = X ∧
    (handle env (handle env s w₁ (postSync chunks)).1 w₂ (getRequest "/tree")).2
      = .sent { status := 200, headers := corsHeaders ++ [("Content-Type", "application/json")],
                body := env.stringify X } := by
  have hs := handle_sync_state env s w₁ (postSync chunks) X rfl rfl
    (parseBody_postSync_ok env chunks X hsize hparse)
  rw [handle_tree env _ w₂ (getRequest "/tree") rfl rfl, hs]
  exact ⟨rfl, rfl⟩

/-- The state changes only by a `POST /sync` whose body arrives whole and whose
assembled text stays within the limit of the size check and parses as JSON. -/
theorem state_changes_only_by_accepted_text (env : Engine) (s : ServerState) (w : World)
    (req : Request)
    (h : ¬ (req.method = "POST" ∧ req.pathname = some "/sync" ∧ req.streamError = none ∧
      jsLength (bodyText env req.chunks) ≤ maxBodyLength ∧
      ∃ v, env.parse (bodyText env req.chunks) = .ok v)) :
    (handle env s w req).1 = s := by
  by_cases hsync : req.pathname = some "/sync" ∧ req.method = "POST"
  · have hrej : ∃ message, parseBody env req = .error message := by
      rw [parseBody_eq]
      by_cases hsize : maxBodyLength < jsLength (bodyText env req.chunks)
      · exact ⟨_, if_pos hsize⟩
      · rw [if_neg hsize]
        cases herr : req.streamError with
        | some message => exact ⟨message, rfl⟩
        | none =>
          cases hparse : env.parse (bodyText env req.chunks) with
          | error message => exact ⟨message, rfl⟩
          | ok v => exact absurd ⟨hsync.2, hsync.1, herr, by omega, v, hparse⟩ h
    obtain ⟨message, hmsg⟩ := hrej
    rw [handle_sync_rejected env s w req message hsync.2 hsync.1 hmsg]
  · exact handle_other_state env s w req hsync

/-! ## The example engine on the bodies made of `€` -/

theorem euroBody_length (n : Nat) : (euroBody n).length = 3 * n + 2 := by
  simp [euroBody, List.length_flatten, List.map_replicate, List.sum_replicate]
  omega

theorem utf8Decode_quote (rest : List UInt8) :
    utf8Decode (0x22 :: rest) Utf8State.initial = '"' :: utf8Decode rest Utf8State.initial := by
  rfl

theorem utf8Decode_euro (rest : List UInt8) :
    utf8Decode (0xE2 :: 0x82 :: 0xAC :: rest) Utf8State.initial
      = '€' :: utf8Decode rest Utf8State.initial := by
  rfl

theorem utf8Decode_euros (n : Nat) (rest : List UInt8) :
    utf8Decode ((List.replicate n [0xE2, 0x82, 0xAC]).flatten ++ rest) Utf8State.initial
      = List.replicate n '€' ++ utf8Decode rest Utf8State.initial := by
  induction n with
  | zero => rfl
  | succ k ih =>
    rw [List.replicate_succ, List.flatten_cons, List.append_assoc]
    show utf8Decode (0xE2 :: 0x82 :: 0xAC ::
      ((List.replicate k [0xE2, 0x82, 0xAC]).flatten ++ rest)) Utf8State.initial = _
    rw [utf8Decode_euro, ih, List.replicate_succ, List.cons_append]

/-- The example engine decodes `euroBody n` to `euroText n`. -/
theorem decode_euroBody (n : Nat) : exampleEngine.decode (euroBody n) = euroText n := by
  show String.mk (utf8Decode (euroBody n) Utf8State.initial) = euroText n
  unfold euroBody euroText
  rw [utf8Decode_quote, utf8Decode_euros, utf8Decode_quote]
  rfl

theorem bodyText_euroBody (n : Nat) : bodyText exampleEngine [euroBody n] = euroText n := by
  unfold bodyText
  rw [List.map_cons, List.map_nil, join_cons, join_nil, String.append_empty, decode_euroBody]

theorem jsLength_euroText (n : Nat) : jsLength (euroText n) = n + 2 := by
  have h1 : utf16Units '"' = 1 := by decide
  have h2 : utf16Units '€' = 1 := by decide
  simp [jsLength, euroText, List.map_replicate, List.sum_replicate, h1, h2]
  omega

theorem plainString_euros (n : Nat) :
    plainString (List.replicate n '€' ++ ['"']) = some (List.replicate n '€') := by
  induction n with
  | zero => rfl
  | succ k ih =>
    rw [List.replicate_succ, List.cons_append, plainString, if_neg (by decide),
      if_neg (by decide), ih]
    rfl

/-- The example engine parses `euroText n` to the string of `n` times `€`. -/
theorem parse_euroText (n : Nat) : exampleEngine.parse (euroText n) = .ok (.str (euroString n)) := by
  show exampleParse (euroText n) = _
  unfold exampleParse euroText
  simp only [if_pos, plainString_euros]
  rfl

/-- A `POST /sync` with the body `euroBody n` is accepted as long as its text
has at most `maxBodyLength` characters, whatever its number of bytes. -/
theorem euroBody_accepted (s : ServerState) (w : World) (n : Nat)
    (hn : n + 2 ≤ maxBodyLength) :
    handle exampleEngine s w (postSync [euroBody n])
      = ({ currentTree := .str (euroString n), lastUpdateTime := w.now,
           dataFile := saveTree exampleEngine (.str (euroString n)) w.write },
         .sent (jsonResponse exampleEngine 200
           (.obj [("status", .str "ok"), ("received", .bool true)]))) := by
  have hbody : parseBody exampleEngine (postSync [euroBody n]) = .ok (.str (euroString n)) := by
    apply parseBody_postSync_ok
    · rw [bodyText_euroBody, jsLength_euroText]; exact hn
    · rw [bodyText_euroBody, parse_euroText]
  have hstate := handle_sync_state exampleEngine s w (postSync [euroBody n]) _ rfl rfl hbody
  have hreply := handle_sync_response exampleEngine s w (postSync [euroBody n]) _ rfl rfl hbody
  have hlog : syncLogName exampleEngine (.str (euroString n)) = .ok "Game" := by rfl
  rw [hlog] at hreply
  exact Prod.ext hstate hreply

/-- A `POST /sync` with the body `euroBody n` is rejected once its text has
more than `maxBodyLength` characters. -/
theorem euroBody_rejected (s : ServerState) (w : World) (n : Nat)
    (hn : maxBodyLength < n + 2) :
    handle exampleEngine s w (postSync [euroBody n])
      = (s, .sent (jsonResponse exampleEngine 500 (.obj [("error", .str "Body too large")]))) := by
  apply handle_sync_rejected exampleEngine s w (postSync [euroBody n]) _ rfl rfl
  rw [parseBody_eq]
  show (if maxBodyLength < jsLength (bodyText exampleEngine [euroBody n]) then _ else _) = _
  rw [bodyText_euroBody, jsLength_euroText, if_pos hn]

/-! ## Ingest and read -/

/-- C1, at the failing input. The body `{"name":"€"}`, valid JSON of 14 bytes,
arrives in two chunks cut after the first of the three bytes of `€`. Decoded
whole, it parses to `{name: "€"}`. The server decodes each chunk on its own:
the snapshot becomes `{name: "���"}`, the ingest is answered
200, and `GET /tree` serves the serialisation of that other value. -/
theorem split_character_not_restored :
    (euroChunk₁ ++ euroChunk₂ = utf8 (compact euroObject)) ∧
    exampleEngine.parse (exampleEngine.decode (euroChunk₁ ++ euroChunk₂)) = .ok euroObject ∧
    handle exampleEngine exampleState ⟨5, .written⟩ (postSync [euroChunk₁, euroChunk₂])
      = ({ currentTree := brokenObject, lastUpdateTime := 5,
           dataFile := .content (exampleEngine.stringifyPretty brokenObject) },
         .sent (jsonResponse exampleEngine 200
           (.obj [("status", .str "ok"), ("received", .bool true)]))) ∧
    (handle exampleEngine
      (handle exampleEngine exampleState ⟨5, .written⟩ (postSync [euroChunk₁, euroChunk₂])).1
      ⟨9, .written⟩ (getRequest "/tree")).2
      = .sent { status := 200, headers := corsHeaders ++ [("Content-Type", "application/json")],
                body := exampleEngine.stringify brokenObject } ∧
    exampleEngine.stringify brokenObject ≠ exampleEngine.stringify euroObject := by
  refine ⟨by decide, by rfl, by rfl, by rfl, by decide⟩

/-- C2, at the failing input. The body made of a quote, 4,000,000 times `€` and
a quote has 12,000,002 bytes, more than 10 MiB; its text has 4,000,002 UTF-16
code units, which the size check of `parseBody` lets through. From any state
the snapshot is replaced by the string it denotes, the last-update marker is
set and the request is answered 200. -/
theorem oversize_bytes_replace_snapshot (s : ServerState) (w : World) :
    10 * 1024 * 1024 < (euroBody 4000000).length ∧
    jsLength (bodyText exampleEngine [euroBody 4000000]) = 4000002 ∧
    handle exampleEngine s w (postSync [euroBody 4000000])
      = ({ currentTree := .str (euroString 4000000), lastUpdateTime := w.now,
           dataFile := saveTree exampleEngine (.str (euroString 4000000)) w.write },
         .sent (jsonResponse exampleEngine 200
           (.obj [("status", .str "ok"), ("received", .bool true)]))) := by
  refine ⟨?_, ?_, euroBody_accepted s w 4000000 (by decide)⟩
  · rw [euroBody_length]; decide
  · rw [bodyText_euroBody, jsLength_euroText]

/-- C3, as stated, fails: a `POST /sync` with malformed JSON is answered with
status 500, which is not a client-error status. -/
theorem malformed_sync_not_client_error :
    (handle exampleEngine exampleState ⟨5, .written⟩ (postSync [utf8 "\x7b"])).2
      = .sent { status := 500, headers := corsHeaders ++ [("Content-Type", "application/json")],
                body := exampleEngine.stringify
                  (.obj [("error", .str "Unexpected end of JSON input")]) } ∧
    (handle exampleEngine exampleState ⟨5, .written⟩ (postSync [utf8 "\x7b"])).2.clientError
      = false := by
  constructor <;> rfl

/-- C3, amended. A `POST /sync` whose text, as the server assembles it, is
longer than `10 * 1024 * 1024` UTF-16 code units or is malformed JSON is
answered with status 500 and the body `{error: message}`, where the message is
`Body too large` for a text over that length and the message of the parse
error otherwise. -/
theorem rejected_sync_answers_500 (env : Engine) (s : ServerState) (w : World)
    (chunks : List (List UInt8))
    (h : maxBodyLength < jsLength (bodyText env chunks) ∨
      ∃ m, env.parse (bodyText env chunks) = .error m) :
    ∃ message,
      (handle env s w (postSync chunks)).2
        = .sent { status := 500, headers := corsHeaders ++ [("Content-Type", "application/json")],
                  body := env.stringify (.obj [("error", .str message)]) } ∧
      (maxBodyLength < jsLength (bodyText env chunks) → message = "Body too large") ∧
      (¬ maxBodyLength < jsLength (bodyText env chunks) →
        env.parse (bodyText env chunks) = .error message) := by
  by_cases hsize : maxBodyLength < jsLength (bodyText env chunks)
  · have hbody : parseBody env (postSync chunks) = .error "Body too large" := by
      rw [parseBody_eq]; exact if_pos hsize
    rw [handle_sync_rejected env s w (postSync chunks) _ rfl rfl hbody]
    exact ⟨_, rfl, fun _ => rfl, fun hn => absurd hsize hn⟩
  · rcases h with h | ⟨m, hm⟩
    · exact absurd h hsize
    · have hbody : parseBody env (postSync chunks) = .error m := by
        rw [parseBody_eq]
        simp only [postSync]
        rw [if_neg hsize, hm]
      rw [handle_sync_rejected env s w (postSync chunks) _ rfl rfl hbody]
      exact ⟨_, rfl, fun hp => absurd hp hsize, fun _ => hm⟩

/-- C3 amended, on a body cut short. -/
theorem rejected_sync_answers_500_witness :
    ∃ message,
      (handle exampleEngine exampleState ⟨5, .written⟩ (postSync [utf8 "\x7b\"name\":"])).2
        = .sent { status := 500, headers := corsHeaders ++ [("Content-Type", "application/json")],
                  body := exampleEngine.stringify (.obj [("error", .str message)]) } ∧
      (maxBodyLength < jsLength (bodyText exampleEngine [utf8 "\x7b\"name\":"]) →
        message = "Body too large") ∧
      (¬ maxBodyLength < jsLength (bodyText exampleEngine [utf8 "\x7b\"name\":"]) →
        exampleEngine.parse (bodyText exampleEngine [utf8 "\x7b\"name\":"]) = .error message) :=
  rejected_sync_answers_500 exampleEngine exampleState ⟨5, .written⟩ [utf8 "\x7b\"name\":"]
    (Or.inr ⟨"Unexpected end of JSON input", by rfl⟩)

/-! ## Values the log line cannot show -/

/-- C4, at the failing input. A `POST /sync` whose body parses to `null` within
the size limit replaces the snapshot by `null`, records the time and writes the
data file, and is then answered with status 500: reading `data.name` for the
log line throws. -/
theorem sync_null_stored_then_500 (env : Engine) (s : ServerState) (w : World)
    (chunks : List (List UInt8))
    (hsize : jsLength (bodyText env chunks) ≤ maxBodyLength)
    (hparse : env.parse (bodyText env chunks) = .ok .null) :
    (handle env s w (postSync chunks)).1.currentTree = .null ∧
    (handle env s w (postSync chunks)).1.lastUpdateTime = w.now ∧
    (handle env s w (postSync chunks)).2
      = .sent { status := 500, headers := corsHeaders ++ [("Content-Type", "application/json")],
                body := env.stringify (.obj [("error", .str (nullReadMessage "name"))]) } := by
  have hbody := parseBody_postSync_ok env chunks .null hsize hparse
  rw [handle_sync_state env s w (postSync chunks) .null rfl rfl hbody,
    handle_sync_response env s w (postSync chunks) .null rfl rfl hbody]
  exact ⟨rfl, rfl, rfl⟩

/-- C4, on the body `null` sent to a freshly started server. -/
theorem sync_null_stored_then_500_witness :
    (handle exampleEngine exampleState ⟨5, .written⟩ (postSync [utf8 "null"])).1.currentTree
      = .null ∧
    (handle exampleEngine exampleState ⟨5, .written⟩ (postSync [utf8 "null"])).1.lastUpdateTime
      = 5 ∧
    (handle exampleEngine exampleState ⟨5, .written⟩ (postSync [utf8 "null"])).2
      = .sent { status := 500, headers := corsHeaders ++ [("Content-Type", "application/json")],
                body := exampleEngine.stringify
                  (.obj [("error", .str (nullReadMessage "name"))]) } :=
  sync_null_stored_then_500 exampleEngine exampleState ⟨5, .written⟩ [utf8 "null"]
    (by decide) (by rfl)

/-! ## Freshness -/

/-- C5, at the failing input. On a server started at time `t₀` without a data
file, which has received no ingest, `GET /status` less than 30000 ms after the
start reports `connected: true`, next to the placeholder name. -/
theorem status_connected_before_any_sync (env : Engine) (t₀ dt : Int) (write : WriteResult)
    (hdt : dt < 30000) :
    (handle env (startup env .absent t₀) ⟨t₀ + dt, write⟩ (getRequest "/status")).2
      = .sent (jsonResponse env 200 (.obj
          [("connected", .bool true), ("lastUpdate", .num t₀), ("timeSinceUpdate", .num dt),
           ("gameName", .str "Not connected"), ("containerCount", .num 0)])) := by
  have hreport : statusReport (startup env .absent t₀) (t₀ + dt) = .ok (.obj
      [("connected", .bool true), ("lastUpdate", .num t₀), ("timeSinceUpdate", .num dt),
       ("gameName", .str "Not connected"), ("containerCount", .num 0)]) := by
    have h1 : t₀ + dt - t₀ = dt := by omega
    simp [statusReport, startup, loadTree, placeholderTree, getProp, List.lookup, truthy,
      bind, Except.bind, pure, Except.pure, h1, hdt]
  unfold handle route
  simp [getRequest, hreport]

/-- C5, one second after a start at time 0. -/
theorem status_connected_before_any_sync_witness :
    (handle exampleEngine (startup exampleEngine .absent 0) ⟨0 + 1000, .written⟩
      (getRequest "/status")).2
      = .sent (jsonResponse exampleEngine 200 (.obj
          [("connected", .bool true), ("lastUpdate", .num 0), ("timeSinceUpdate", .num 1000),
           ("gameName", .str "Not connected"), ("containerCount", .num 0)])) :=
  status_connected_before_any_sync exampleEngine 0 1000 .written (by decide)

/-! ## Persistence -/

/-- C10, as stated, fails: the body `1e999` is valid JSON and parses to
`Infinity`; the ingest is answered 200 and the data file is written, but
`JSON.stringify` writes `Infinity` as `null`, so the next start has `null` as
its snapshot, not the value stored. -/
theorem infinity_restored_as_null :
    handle exampleEngine exampleState ⟨5, .written⟩ (postSync [utf8 "1e999"])
      = ({ currentTree := .other (.infinity false), lastUpdateTime := 5,
           dataFile := .content "null" },
         .sent (jsonResponse exampleEngine 200
           (.obj [("status", .str "ok"), ("received", .bool true)]))) ∧
    (startup exampleEngine
      (handle exampleEngine exampleState ⟨5, .written⟩ (postSync [utf8 "1e999"])).1.dataFile
      77).currentTree = .null ∧
    Json.null ≠ .other (.infinity false) := by
  refine ⟨by rfl, by rfl, ?_⟩
  intro h
  cases h

/-- C10, amended. After an accepted ingest of `X` whose write succeeds, the
data file holds the indented serialisation of `X`, and a start from that file
has as its snapshot what `JSON.parse` reads from that text, or the placeholder
if it does not parse; so the snapshot is `X` whenever `JSON.parse` reads the
serialisation of `X` back as `X`. A start without a data file, or from a file
that does not parse, has the placeholder as its snapshot. -/
theorem persisted_snapshot_restored (env : Engine) (s : ServerState) (w : World)
    (chunks : List (List UInt8)) (X : Json) (t : Int)
    (hsize : jsLength (bodyText env chunks) ≤ maxBodyLength)
    (hparse : env.parse (bodyText env chunks) = .ok X)
    (hwrite : w.write = .written) :
    (handle env s w (postSync chunks)).1.dataFile = .content (env.stringifyPretty X) ∧
    (startup env (handle env s w (postSync chunks)).1.dataFile t).currentTree
      = (match env.parse (env.stringifyPretty X) with
         | .ok value => value
         | .error _ => placeholderTree) ∧
    (env.parse (env.stringifyPretty X) = .ok X →
      (startup env (handle env s w (postSync chunks)).1.dataFile t).currentTree = X) ∧
    (startup env .absent t).currentTree = placeholderTree ∧
    (∀ text message, env.parse text = .error message →
      (startup env (.content text) t).currentTree = placeholderTree) := by
  have hbody := parseBody_postSync_ok env chunks X hsize hparse
  rw [handle_sync_state env s w (postSync chunks) X rfl rfl hbody]
  refine ⟨?_, ?_, ?_, rfl, ?_⟩
  · simp [saveTree, hwrite]
  · simp only [saveTree, hwrite, startup, loadTree]
  · intro hlib
    simp [saveTree, hwrite, startup, loadTree, hlib]
  · intro text message hbad
    simp [startup, loadTree, hbad]

/-- C10 amended, on the worked example. -/
theorem persisted_snapshot_restored_witness :
    (handle exampleEngine exampleState ⟨5, .written⟩ (postSync [utf8 game1Text])).1.dataFile
      = .content (exampleEngine.stringifyPretty game1) ∧
    (startup exampleEngine
      (handle exampleEngine exampleState ⟨5, .written⟩ (postSync [utf8 game1Text])).1.dataFile
      77).currentTree
      = (match exampleEngine.parse (exampleEngine.stringifyPretty game1) with
         | .ok value => value
         | .error _ => placeholderTree) ∧
    (exampleEngine.parse (exampleEngine.stringifyPretty game1) = .ok game1 →
      (startup exampleEngine
        (handle exampleEngine exampleState ⟨5, .written⟩
          (postSync [utf8 game1Text])).1.dataFile 77).currentTree = game1) ∧
    (startup exampleEngine .absent 77).currentTree = placeholderTree ∧
    (∀ text message, exampleEngine.parse text = .error message →
      (startup exampleEngine (.content text) 77).currentTree = placeholderTree) :=
  persisted_snapshot_restored exampleEngine exampleState ⟨5, .written⟩ [utf8 game1Text] game1 77
    (by decide) (by rfl) rfl

/-- The worked example is restored as it was stored. -/
theorem worked_example_restored :
    (startup exampleEngine
      (handle exampleEngine exampleState ⟨5, .written⟩ (postSync [utf8 game1Text])).1.dataFile
      77).currentTree = game1 := by
  rfl

/-! ## The loops of the renderer -/

/-- The children loop appends to the text it is given. -/
theorem forEachChild_result (env : Engine) (p : String) (len : Nat) (cs : List Node) :
    ∀ (result : String) (i : Nat),
      forEachChild env p len result i cs = result ++ forEachChild env p len "" i cs := by
  induction cs with
  | nil => intro result i; simp [forEachChild]
  | cons c rest ih =>
    intro result i
    rw [forEachChild, ih, forEachChild, ih ("" ++ _), String.empty_append, String.append_assoc]

/-- The index test of the children loop singles out the final child. -/
theorem forEachChild_eq (env : Engine) (p : String) (len : Nat) (cs : List Node) :
    ∀ (i : Nat), len = i + cs.length →
      forEachChild env p len "" i cs = siblingsText env p cs := by
  induction cs with
  | nil => intro i _; simp [forEachChild, siblingsText]
  | cons c rest ih =>
    intro i hlen
    rw [forEachChild, forEachChild_result, String.empty_append, siblingsText,
      ih (i + 1) (by simp at hlen; omega)]
    have hflag : decide ((i : Int) = (len : Int) - 1) = rest.isEmpty := by
      cases rest with
      | nil => simp at hlen; simp [hlen]
      | cons d ds =>
        simp at hlen
        simp
        omega
    rw [hflag]

/-- The containers loop appends to the text it is given. -/
theorem forEachContainer_result (env : Engine) (len : Nat) (cs : List Node) :
    ∀ (result : String) (i : Nat),
      forEachContainer env len result i cs = result ++ forEachContainer env len "" i cs := by
  induction cs with
  | nil => intro result i; simp [forEachContainer]
  | cons c rest ih =>
    intro result i
    rw [forEachContainer, ih, forEachContainer, ih ("" ++ _ ++ _), String.empty_append]
    simp only [String.append_assoc]

/-- The index test of the containers loop singles out the final container. -/
theorem forEachContainer_eq (env : Engine) (len : Nat) (cs : List Node) :
    ∀ (i : Nat), len = i + cs.length →
      forEachContainer env len "" i cs = containersText env cs := by
  induction cs with
  | nil => intro i _; simp [forEachContainer, containersText]
  | cons c rest ih =>
    intro i hlen
    rw [forEachContainer, forEachContainer_result, String.empty_append, containersText,
      ih (i + 1) (by simp at hlen; omega)]
    have hflag : decide ((i : Int) = (len : Int) - 1) = rest.isEmpty := by
      cases rest with
      | nil => simp at hlen; simp [hlen]
      | cons d ds =>
        simp at hlen
        simp
        omega
    rw [hflag]

/-- The line-count annotation, as the renderer appends it. -/
theorem lineNote_eq (env : Engine) (line : String) (node : Node) :
    (if truthyNum node.lineCount then
      line ++ (" (" ++ env.numToString (node.lineCount.getD 0) ++ " lines)") else line)
      = line ++ lineNote env node := by
  unfold lineNote truthyNum
  cases node.lineCount with
  | none => simp [truthy]
  | some n =>
    by_cases hn : n = 0 <;> simp [truthy, hn]

/-- The child-count annotation, as the renderer appends it. -/
theorem childNote_eq (env : Engine) (line : String) (node : Node) :
    (if truthyNum node.childCount then
      line ++ (" (" ++ env.numToString (node.childCount.getD 0) ++ " children)") else line)
      = line ++ childNote env node := by
  unfold childNote truthyNum
  cases node.childCount with
  | none => simp [truthy]
  | some n =>
    by_cases hn : n = 0 <;> simp [truthy, hn]

/-- A node renders as its own line followed by the text of its children. -/
theorem nodeToText_eq (env : Engine) (node : Node) (p : String) (isLast : Bool) :
    nodeToText env node p isLast =
      p ++ connector isLast ++ nodeLabel env node ++ "\n" ++
        siblingsText env (p ++ segment isLast) node.children := by
  cases node with
  | mk name className lineCount childCount children =>
    have h1 := lineNote_eq env (p ++ connector isLast ++ name ++ (" [" ++ className ++ "]"))
      (.mk name className lineCount childCount children)
    have h2 := childNote_eq env
      (p ++ connector isLast ++ name ++ (" [" ++ className ++ "]") ++
        lineNote env (.mk name className lineCount childCount children))
      (.mk name className lineCount childCount children)
    simp only [Node.lineCount, Node.childCount] at h1 h2
    rw [nodeToText]
    simp only [connector, segment] at h1 h2 ⊢
    rw [h1, h2]
    simp only [nodeLabel, Node.name, Node.className, Node.children]
    cases children with
    | nil => simp [siblingsText, String.append_assoc]
    | cons c rest =>
      rw [if_pos (by simp), forEachChild_result, forEachChild_eq env _ _ _ 0 (by simp)]
      simp only [String.append_assoc]

/-! ## Lines and pre-order -/

/-- The indentation of a child extends the indentation of its parent by one segment. -/
theorem join_segments_snoc (anc : List Bool) (isLast : Bool) :
    String.join ((anc ++ [isLast]).map segment)
      = String.join (anc.map segment) ++ segment isLast := by
  rw [List.map_append, join_append]
  simp [join_cons, join_nil]

mutual
/-- The text of a subtree is the sequence of its lines. -/
theorem nodeToText_rows (env : Engine) : ∀ (node : Node) (anc : List Bool) (isLast : Bool),
    nodeToText env node (String.join (anc.map segment)) isLast
      = String.join ((Node.rows anc isLast node).map (fun r => r.text env ++ "\n"))
  | .mk name className lineCount childCount children, anc, isLast => by
    rw [nodeToText_eq, Node.rows, List.map_cons, join_cons, ← join_segments_snoc]
    simp only [Node.children]
    rw [siblingsText_rows env children (anc ++ [isLast])]
    simp only [Row.text]
/-- The text of a sequence of siblings is the sequence of their lines. -/
theorem siblingsText_rows (env : Engine) : ∀ (nodes : List Node) (anc : List Bool),
    siblingsText env (String.join (anc.map segment)) nodes
      = String.join ((Node.rowsOfSiblings anc nodes).map (fun r => r.text env ++ "\n"))
  | [], anc => by simp [siblingsText, Node.rowsOfSiblings, join_nil]
  | node :: rest, anc => by
    rw [siblingsText, Node.rowsOfSiblings, List.map_append, join_append,
      nodeToText_rows env node anc, siblingsText_rows env rest anc]
end

mutual
/-- The lines of a subtree show its nodes in depth-first pre-order. -/
theorem rows_preorder : ∀ (node : Node) (anc : List Bool) (isLast : Bool),
    (Node.rows anc isLast node).map Row.node = Node.preorder node
  | .mk name className lineCount childCount children, anc, isLast => by
    rw [Node.rows, Node.preorder, List.map_cons, rowsOfSiblings_preorder children]
/-- The lines of a sequence of subtrees show their nodes, one subtree after the other. -/
theorem rowsOfSiblings_preorder : ∀ (nodes : List Node) (anc : List Bool),
    (Node.rowsOfSiblings anc nodes).map Row.node = Node.preorderAll nodes
  | [], anc => by simp [Node.rowsOfSiblings, Node.preorderAll]
  | node :: rest, anc => by
    rw [Node.rowsOfSiblings, Node.preorderAll, List.map_append, rows_preorder node,
      rowsOfSiblings_preorder rest]
end

/-- In a sequence of siblings every one but the final is rendered as not last. -/
theorem siblingsText_snoc (env : Engine) (p : String) (final : Node) (init : List Node) :
    siblingsText env p (init ++ [final])
      = String.join (init.map (fun c => nodeToText env c p false)) ++
          nodeToText env final p true := by
  induction init with
  | nil => simp [siblingsText, join_nil]
  | cons c rest ih =>
    rw [List.cons_append, siblingsText, ih, List.map_cons, join_cons, String.append_assoc]
    cases rest <;> rfl

/-- Among the containers every one but the final is rendered as not last. -/
theorem containersText_snoc (env : Engine) (final : Node) (init : List Node) :
    containersText env (init ++ [final])
      = String.join (init.map (fun c => nodeToText env c "" false ++ "\n")) ++
          (nodeToText env final "" true ++ "\n") := by
  induction init with
  | nil => simp [containersText, join_nil]
  | cons c rest ih =>
    have hflag : (rest ++ [final]).isEmpty = false := by cases rest <;> rfl
    rw [List.cons_append, containersText, ih, List.map_cons, join_cons, hflag]
    simp only [String.append_assoc]

/-- The text of a snapshot is the banner followed by the text of its containers. -/
theorem treeToText_eq (env : Engine) (tree : Snapshot) :
    treeToText env tree = banner env tree ++ containersText env (tree.containers.getD []) := by
  have hname : (if truthy (tree.name.map Json.str) then tree.name.getD "" else "Unknown")
      = (match tree.name with
        | some name => if name = "" then "Unknown" else name
        | none => "Unknown") := by
    cases tree.name with
    | none => simp [truthy]
    | some name => by_cases hn : name = "" <;> simp [truthy, hn]
  unfold treeToText
  simp only [hname]
  have hb : banner env tree =
      "=====================================\n" ++ "  PROJECT DIRECTORY TREE\n" ++
        ("  Game: " ++ (match tree.name with
          | some name => if name = "" then "Unknown" else name
          | none => "Unknown") ++ "\n") ++
        ("  Updated: " ++ env.localeString tree.timestamp ++ "\n") ++
        "=====================================\n\n" := by
    unfold banner
    simp only [List.map_cons, List.map_nil, join_cons, join_nil, String.append_assoc,
      String.append_empty, String.empty_append]
    rfl
  rw [hb]
  cases tree.containers with
  | none => simp [containersText]
  | some cs =>
    simp only [Option.getD_some]
    rw [forEachContainer_result, forEachContainer_eq env _ _ 0 (by simp)]

/-! ## The text of a snapshot -/

/-- The indentation built from `d` ancestors has `4 * d` characters. -/
theorem join_segments_length (anc : List Bool) :
    (String.join (anc.map segment)).length = 4 * anc.length := by
  induction anc with
  | nil => rfl
  | cons a rest ih =>
    rw [List.map_cons, join_cons, String.length_append, ih, List.length_cons]
    have h : (segment a).length = 4 := by cases a <;> rfl
    omega

/-- C6. Sibling connectors. In the children of a node and among the top-level
containers, every sibling but the final one is rendered as not last and the
final one as last; and a node rendered under an indentation `pfx` starts with
`pfx` followed by the connector, four characters long, which is the terminal
one exactly for a node rendered as last. -/
theorem sibling_connectors (env : Engine) :
    (∀ (name className : String) (lineCount childCount : Option Int) (init : List Node)
        (final : Node) (pfx : String) (isLast : Bool),
      nodeToText env (.mk name className lineCount childCount (init ++ [final])) pfx isLast
        = pfx ++ (if isLast then "└── " else "├── ") ++
            nodeLabel env (.mk name className lineCount childCount (init ++ [final])) ++ "\n" ++
            String.join (init.map (fun child =>
              nodeToText env child (pfx ++ (if isLast then "    " else "│   ")) false)) ++
            nodeToText env final (pfx ++ (if isLast then "    " else "│   ")) true) ∧
    (∀ (name : Option String) (timestamp : Int) (init : List Node) (final : Node),
      treeToText env { name := name, timestamp := timestamp, containers := some (init ++ [final]) }
        = banner env { name := name, timestamp := timestamp, containers := some (init ++ [final]) }
            ++ String.join (init.map (fun container => nodeToText env container "" false ++ "\n"))
            ++ (nodeToText env final "" true ++ "\n")) ∧
    (∀ (node : Node) (pfx : String),
      (∃ rest, nodeToText env node pfx true = pfx ++ "└── " ++ rest) ∧
      (∃ rest, nodeToText env node pfx false = pfx ++ "├── " ++ rest)) ∧
    "└── ".length = 4 ∧ "├── ".length = 4 ∧ "└── " ≠ "├── " := by
  refine ⟨?_, ?_, ?_, rfl, rfl, by decide⟩
  · intro name className lineCount childCount init final pfx isLast
    rw [nodeToText_eq]
    simp only [Node.children, connector, segment]
    rw [siblingsText_snoc]
    simp only [String.append_assoc]
  · intro name timestamp init final
    rw [treeToText_eq]
    simp only [Option.getD_some]
    rw [containersText_snoc]
    simp only [String.append_assoc]
  · intro node pfx
    constructor
    · exact ⟨_, by rw [nodeToText_eq]; simp only [connector, String.append_assoc]; rfl⟩
    · exact ⟨_, by rw [nodeToText_eq]; simp only [connector, String.append_assoc]; rfl⟩

/-- C7. Indentation growth. The text of a container is the sequence of the
lines of its subtree, and the line of a node at depth `d` is `d` segments, one
per ancestor from the container down, blank under an ancestor that was the
last of its siblings and a vertical bar followed by three blanks otherwise,
`4 * d` characters in all, followed by the connector and the label of the
node. The worked example renders as the banner followed by the line of
`Workspace` and, right after it, the line of `Part1` indented by four blanks. -/
theorem indentation_follows_ancestors (env : Engine) :
    (∀ (container : Node) (isLast : Bool),
      nodeToText env container "" isLast
        = String.join ((Node.rows [] isLast container).map (fun r =>
            String.join (r.ancestorsLast.map (fun last => if last then "    " else "│   "))
              ++ (if r.isLast then "└── " else "├── ") ++ nodeLabel env r.node ++ "\n"))) ∧
    (∀ (ancestorsLast : List Bool),
      (String.join (ancestorsLast.map (fun last => if last then "    " else "│   "))).length
        = 4 * ancestorsLast.length) ∧
    treeToText env game1Snapshot
      = banner env game1Snapshot ++ "└── Workspace [Folder]\n" ++ "    └── Part1 [Part]\n" ++ "\n" := by
  refine ⟨?_, ?_, ?_⟩
  · intro container isLast
    have h := nodeToText_rows env container [] isLast
    simp only [List.map_nil, join_nil] at h
    rw [h]
    rfl
  · intro anc
    exact join_segments_length anc
  · rw [treeToText_eq]
    have h : containersText env (game1Snapshot.containers.getD [])
        = "└── Workspace [Folder]\n" ++ "    └── Part1 [Part]\n" ++ "\n" := by
      simp [game1Snapshot, containersText, nodeToText_eq, siblingsText, connector, segment,
        nodeLabel, lineNote, childNote, Node.name, Node.className, Node.lineCount,
        Node.childCount, Node.children]
    rw [h]
    simp only [String.append_assoc]

/-- C8. Line format. A node renders as its indentation, its connector, its
name, its class name between brackets, the line count between parentheses when
it is present and not zero, the child count between parentheses when it is
present and not zero, and a line break, followed by the text of its children;
the line does not depend on the children. -/
theorem node_line_format (env : Engine) (name className : String)
    (lineCount childCount : Option Int) (children : List Node) (pfx : String) (isLast : Bool) :
    nodeToText env (.mk name className lineCount childCount children) pfx isLast
      = pfx ++ (if isLast then "└── " else "├── ") ++ name ++ " [" ++ className ++ "]"
          ++ (match lineCount with
              | some n => if n = 0 then "" else " (" ++ env.numToString n ++ " lines)"
              | none => "")
          ++ (match childCount with
              | some m => if m = 0 then "" else " (" ++ env.numToString m ++ " children)"
              | none => "")
          ++ "\n"
          ++ siblingsText env (pfx ++ (if isLast then "    " else "│   ")) children := by
  rw [nodeToText_eq]
  simp only [nodeLabel, lineNote, childNote, connector, segment, Node.name, Node.className,
    Node.lineCount, Node.childCount, Node.children, String.append_assoc]

/-- The text of the containers is the sequence of their blocks: the lines of a
container, then an empty line. -/
theorem containersText_rows (env : Engine) (containers : List Node) :
    containersText env containers
      = String.join ((containerRows containers).map (fun rows =>
          String.join (rows.map (fun r => r.text env ++ "\n")) ++ "\n")) := by
  induction containers with
  | nil => simp [containersText, containerRows, join_nil]
  | cons c rest ih =>
    have h := nodeToText_rows env c [] rest.isEmpty
    simp only [List.map_nil, join_nil] at h
    rw [containersText, ih, h, containerRows, List.map_cons, join_cons]

/-- The lines of the containers show the nodes of each container in pre-order. -/
theorem containerRows_preorder (containers : List Node) :
    (containerRows containers).map (fun rows => rows.map Row.node)
      = containers.map Node.preorder := by
  induction containers with
  | nil => rfl
  | cons c rest ih =>
    rw [containerRows, List.map_cons, List.map_cons, ih, rows_preorder]

/-- C9. Structure of the text. It is the banner, five lines and a blank one,
followed for each top-level container, in order, by one block: the lines of
the container, each followed by a line break, and then an empty line. The
lines of a container are exactly one per node of its subtree, in depth-first
pre-order with children in stored order, and the line of a node is its
indentation, its connector and its label. Without containers, absent or empty,
the text is the banner. -/
theorem treeToText_structure (env : Engine) (tree : Snapshot) :
    treeToText env tree
      = banner env tree ++
          String.join ((containerRows (tree.containers.getD [])).map (fun rows =>
            String.join (rows.map (fun r =>
              String.join (r.ancestorsLast.map (fun last => if last then "    " else "│   "))
                ++ (if r.isLast then "└── " else "├── ") ++ nodeLabel env r.node ++ "\n"))
              ++ "\n")) ∧
    (containerRows (tree.containers.getD [])).map (fun rows => rows.map Row.node)
      = (tree.containers.getD []).map Node.preorder ∧
    treeToText env { tree with containers := none }
      = banner env { tree with containers := none } ∧
    treeToText env { tree with containers := some [] }
      = banner env { tree with containers := some [] } := by
  refine ⟨?_, containerRows_preorder _, ?_, ?_⟩
  · rw [treeToText_eq, containersText_rows]
    rfl
  · rw [treeToText_eq]
    simp [containersText]
  · rw [treeToText_eq]
    simp [containersText]

/-- With a snapshot in the data model, `GET /tree/text` answers with its text. -/
theorem handle_tree_text (env : Engine) (s : ServerState) (w : World) (tree : Snapshot)
    (h : Snapshot.ofJson s.currentTree = some tree) :
    handle env s w (getRequest "/tree/text")
      = (s, .sent { status := 200, headers := corsHeaders ++ [("Content-Type", "text/plain")],
                    body := treeToText env tree }) := by
  unfold handle route
  simp [getRequest, h]

/-- The worked example, end to end: after the ingest of its body, the text
served is the banner followed by the two lines of the tree and an empty line. -/
theorem worked_example_served :
    (handle exampleEngine
      (handle exampleEngine exampleState ⟨5, .written⟩ (postSync [utf8 game1Text])).1
      ⟨9, .written⟩ (getRequest "/tree/text")).2
      = .sent { status := 200, headers := corsHeaders ++ [("Content-Type", "text/plain")],
                body := banner exampleEngine game1Snapshot ++ "└── Workspace [Folder]\n" ++
                  "    └── Part1 [Part]\n" ++ "\n" } := by
  rfl

/-- With a snapshot that is `null`, `GET /status` throws after the head is
written and leaves the response unfinished. -/
theorem status_of_null_unfinished (env : Engine) (s : ServerState) (w : World)
    (h : s.currentTree = .null) :
    handle env s w (getRequest "/status") = (s, .unfinished 200) := by
  unfold handle route
  simp [getRequest, statusReport, h, getProp, bind, Except.bind]

/-- A request whose URL cannot be parsed is left without an answer, and the
state is kept. -/
theorem handle_bad_url (env : Engine) (s : ServerState) (w : World) (req : Request)
    (h : req.pathname = none) : handle env s w req = (s, .unanswered) := by
  unfold handle
  rw [h]

end LiveTree
